import Mathlib

/-!
# Verification of the osctrl TLS device-communication core

Shallow embedding of the osctrl TLS service core (environment/settings
pseudo-caches, distributed-query coordinator, file-carving engine,
protocol-handler auth requirements and configuration validation), with
theorems settling the specification claims about it.

Definitions are translated from the Go sources (`src/tls/main.go` and the
service `loadingSettings` files). Components of the repository whose
implementation files are not present (the queries, carves and handlers
packages, and the `refreshEnvironments`/`refreshSettings` helpers of the TLS
main package) are modelled from the specification; each such definition says
so in its doc comment.
-/

namespace Osctrl

/-! ## Settings and the pseudo-cache refresh loops (src/tls/main.go) -/

/-- `defaultRefresh int = 300`: default refreshing interval in seconds,
from the constant block of `src/tls/main.go`. -/
def defaultRefresh : Int := 300

/-- The slice of the settings store that the TLS refresh goroutines read:
the `RefreshEnvs` and `RefreshSettings` integer settings and the
`DebugService` boolean, all for the TLS service. Reading an integer setting
yields `0` when it is absent or unreadable. -/
structure SettingsStore where
  refreshEnvs : Int
  refreshSettings : Int
  debugService : Bool
deriving DecidableEq

/-- The interval captured by the environments refresh goroutine before its
loop: `_t := settingsmgr.RefreshEnvs(settings.ServiceTLS); if _t == 0 { _t =
int64(defaultRefresh) }` (`src/tls/main.go`, `osctrlService`). -/
def envsLoopInterval (s : SettingsStore) : Int :=
  let t := s.refreshEnvs
  if t = 0 then defaultRefresh else t

/-- The interval captured by the settings refresh goroutine before its loop:
`_t := settingsmgr.RefreshSettings(settings.ServiceTLS); if _t == 0 { _t =
int64(defaultRefresh) }` (`src/tls/main.go`, `osctrlService`). -/
def settingsLoopInterval (s : SettingsStore) : Int :=
  let t := s.refreshSettings
  if t = 0 then defaultRefresh else t

/-- The environments pseudo-cache snapshot `environments.MapEnvironments`,
keyed by the environment path secret (minimal model: key/value pairs). -/
abbrev MapEnvironments := List (String × String)

/-- The settings pseudo-cache snapshot `settings.MapSettings`
(minimal model: name/value pairs). -/
abbrev MapSettings := List (String × Int)

/-- Modelled from the spec: the body of `refreshEnvironments`, which is
called from the envs refresh loop in `src/tls/main.go` but whose definition
file is not present. Per the spec, a failed refresh logs and retains the
previous snapshot; a successful one publishes the newly loaded map. -/
def refreshEnvironments (prev : MapEnvironments)
    (load : Except String MapEnvironments) : MapEnvironments :=
  match load with
  | .ok m => m
  | .error _ => prev

/-- Modelled from the spec: the body of `refreshSettings`, called from the
settings refresh loop in `src/tls/main.go` but whose definition file is not
present. A failed refresh retains the previous snapshot. -/
def refreshSettingsMap (prev : MapSettings)
    (load : Except String MapSettings) : MapSettings :=
  match load with
  | .ok m => m
  | .error _ => prev

/-- State of the environments refresh goroutine: the interval `_t` captured
before entering the `for` loop, and the currently published `envsmap`
snapshot. -/
structure EnvsLoopState where
  t : Int
  snapshot : MapEnvironments
deriving DecidableEq

/-- Goroutine start (`src/tls/main.go`, `osctrlService`): `_t` is computed
once from the settings store as it is at that moment, before the loop. -/
def envsLoopInit (startStore : SettingsStore) (snap0 : MapEnvironments) :
    EnvsLoopState :=
  { t := envsLoopInterval startStore, snapshot := snap0 }

/-- One iteration of the envs refresh loop body: it reads `DebugService`
from the current store (returned as the third component: whether a debug
line was logged), republishes `envsmap = refreshEnvironments()`, and sleeps
`time.Duration(_t) * time.Second` — the second component is the sleep
duration in seconds. The loop body never re-reads `RefreshEnvs`. -/
def envsLoopStep (st : EnvsLoopState) (storeNow : SettingsStore)
    (load : Except String MapEnvironments) : EnvsLoopState × Int × Bool :=
  ({ t := st.t, snapshot := refreshEnvironments st.snapshot load },
    st.t, storeNow.debugService)

/-- The envs refresh goroutine after `i` iterations, given the settings
store observed at start and at each iteration, and the storage load outcome
of each iteration. -/
def envsLoopRun (startStore : SettingsStore) (storeAt : Nat → SettingsStore)
    (loads : Nat → Except String MapEnvironments)
    (snap0 : MapEnvironments) : Nat → EnvsLoopState
  | 0 => envsLoopInit startStore snap0
  | (i + 1) =>
      (envsLoopStep (envsLoopRun startStore storeAt loads snap0 i)
        (storeAt i) (loads i)).1

/-- The sleep duration (seconds) used by iteration `i` of the envs refresh
loop. -/
def envsSleepAt (startStore : SettingsStore) (storeAt : Nat → SettingsStore)
    (loads : Nat → Except String MapEnvironments)
    (snap0 : MapEnvironments) (i : Nat) : Int :=
  (envsLoopStep (envsLoopRun startStore storeAt loads snap0 i)
    (storeAt i) (loads i)).2.1

/-- State of the settings refresh goroutine, analogous to `EnvsLoopState`. -/
structure SettingsLoopState where
  t : Int
  snapshot : MapSettings
deriving DecidableEq

/-- Settings goroutine start: `_t` computed once from `RefreshSettings`. -/
def settingsLoopInit (startStore : SettingsStore) (snap0 : MapSettings) :
    SettingsLoopState :=
  { t := settingsLoopInterval startStore, snapshot := snap0 }

/-- One iteration of the settings refresh loop body. -/
def settingsLoopStep (st : SettingsLoopState) (storeNow : SettingsStore)
    (load : Except String MapSettings) : SettingsLoopState × Int × Bool :=
  ({ t := st.t, snapshot := refreshSettingsMap st.snapshot load },
    st.t, storeNow.debugService)

/-- The settings refresh goroutine after `i` iterations. -/
def settingsLoopRun (startStore : SettingsStore)
    (storeAt : Nat → SettingsStore)
    (loads : Nat → Except String MapSettings)
    (snap0 : MapSettings) : Nat → SettingsLoopState
  | 0 => settingsLoopInit startStore snap0
  | (i + 1) =>
      (settingsLoopStep (settingsLoopRun startStore storeAt loads snap0 i)
        (storeAt i) (loads i)).1

/-- Stored values of the `RefreshEnvs` and `RefreshSettings` integer
settings in the backing store; `none` when the setting row is absent. -/
structure StoredRefresh where
  refreshEnvs : Option Int
  refreshSettings : Option Int
deriving DecidableEq

/-- The `RefreshEnvs`/`RefreshSettings` initialization blocks of
`loadingSettings` (`src/unnamed/part_000`): for each key, if
`!settingsmgr.IsValue(...)` then `NewIntegerValue(..., int64(defaultRefresh))`;
an already-present value is left untouched. -/
def loadingSettings (st : StoredRefresh) : StoredRefresh :=
  let st1 :=
    if st.refreshEnvs.isNone then
      { st with refreshEnvs := some defaultRefresh }
    else st
  if st1.refreshSettings.isNone then
    { st1 with refreshSettings := some defaultRefresh }
  else st1

/-- The captured interval field `t` is threaded unchanged through every
iteration of the envs refresh loop. -/
lemma envsLoopRun_t (startStore : SettingsStore)
    (storeAt : Nat → SettingsStore)
    (loads : Nat → Except String MapEnvironments)
    (snap0 : MapEnvironments) :
    ∀ i, (envsLoopRun startStore storeAt loads snap0 i).t =
      envsLoopInterval startStore := by
  intro i
  induction i with
  | zero => rfl
  | succ n ih => simpa [envsLoopRun, envsLoopStep] using ih

/-- C1 (counterexample): the refresh interval is not re-read on each cycle.
With `RefreshEnvs = 300` at goroutine start and `RefreshEnvs = 10` stored at
every later observation point, iteration 1 still sleeps 300 seconds, not the
currently-stored 10. -/
theorem refresh_interval_reread_refuted :
    envsSleepAt ⟨300, 300, false⟩ (fun _ => ⟨10, 300, false⟩)
        (fun _ => Except.ok []) [] 1 ≠
      envsLoopInterval ⟨10, 300, false⟩ := by
  decide

/-- C1 (amended): the refresh interval setting is read once, when the
refresh goroutine starts (with the `0 ↦ 300` fallback), and every iteration
of the loop sleeps for that captured value, whatever the store holds at that
iteration; an operator change to the setting takes effect only after a
process restart. -/
theorem refresh_interval_captured_at_start
    (startStore : SettingsStore) (storeAt : Nat → SettingsStore)
    (loads : Nat → Except String MapEnvironments)
    (snap0 : MapEnvironments) (i : Nat) :
    envsSleepAt startStore storeAt loads snap0 i =
      envsLoopInterval startStore := by
  simp [envsSleepAt, envsLoopStep, envsLoopRun_t]

/-- C8: the default refresh interval is 300 seconds: `defaultRefresh = 300`;
`loadingSettings` initializes an absent `RefreshEnvs`/`RefreshSettings`
setting to 300 and leaves present values untouched; and a stored value that
reads as 0 makes either refresh loop use 300 as its interval. -/
theorem defaultRefresh_300 :
    defaultRefresh = 300 ∧
    loadingSettings ⟨none, none⟩ = ⟨some 300, some 300⟩ ∧
    (∀ v w : Int, loadingSettings ⟨some v, some w⟩ = ⟨some v, some w⟩) ∧
    (∀ (w : Int) (b : Bool), envsLoopInterval ⟨0, w, b⟩ = 300) ∧
    (∀ (v : Int) (b : Bool), settingsLoopInterval ⟨v, 0, b⟩ = 300) := by
  refine ⟨rfl, rfl, fun v w => rfl, fun w b => rfl, fun v b => rfl⟩

/-- C9: a failed refresh cycle (storage unreachable or load error) retains
the previously published snapshot: `refreshEnvironments`/`refreshSettings`
return the previous map on a load error, and an iteration of either refresh
loop whose load fails leaves the published snapshot unchanged. -/
theorem failed_refresh_retains_snapshot :
    (∀ (prev : MapEnvironments) (e : String),
      refreshEnvironments prev (Except.error e) = prev) ∧
    (∀ (prev : MapSettings) (e : String),
      refreshSettingsMap prev (Except.error e) = prev) ∧
    (∀ (startStore : SettingsStore) (storeAt : Nat → SettingsStore)
        (loads : Nat → Except String MapEnvironments)
        (snap0 : MapEnvironments) (i : Nat) (e : String),
      loads i = Except.error e →
        (envsLoopRun startStore storeAt loads snap0 (i + 1)).snapshot =
          (envsLoopRun startStore storeAt loads snap0 i).snapshot) ∧
    (∀ (startStore : SettingsStore) (storeAt : Nat → SettingsStore)
        (loads : Nat → Except String MapSettings)
        (snap0 : MapSettings) (i : Nat) (e : String),
      loads i = Except.error e →
        (settingsLoopRun startStore storeAt loads snap0 (i + 1)).snapshot =
          (settingsLoopRun startStore storeAt loads snap0 i).snapshot) := by
  refine ⟨fun prev e => rfl, fun prev e => rfl, ?_, ?_⟩
  · intro startStore storeAt loads snap0 i e h
    simp [envsLoopRun, envsLoopStep, refreshEnvironments, h]
  · intro startStore storeAt loads snap0 i e h
    simp [settingsLoopRun, settingsLoopStep, refreshSettingsMap, h]

/-- Witness for C9 at a concrete failing load: with the load of iteration 0
failing, the snapshot after iteration 1 equals the initial snapshot. -/
theorem failed_refresh_retains_snapshot_witness :
    (envsLoopRun ⟨300, 300, false⟩ (fun _ => ⟨300, 300, false⟩)
        (fun _ => Except.error "storage unreachable") [("secret", "prod")]
        1).snapshot =
      (envsLoopRun ⟨300, 300, false⟩ (fun _ => ⟨300, 300, false⟩)
        (fun _ => Except.error "storage unreachable") [("secret", "prod")]
        0).snapshot :=
  failed_refresh_retains_snapshot.2.2.1 ⟨300, 300, false⟩
    (fun _ => ⟨300, 300, false⟩) (fun _ => Except.error "storage unreachable")
    [("secret", "prod")] 0 "storage unreachable" rfl

/-! ## Distributed Query Coordinator

The queries package is not under `src/` (only callers such as
`src/cli/query.go` and `src/tls/main.go` are), so the coordinator operations
are modelled from the spec. -/

/-- One target-selector row attached to a query: type + value, evaluated
against a node's UUID / platform / tags. -/
inductive TargetKind
  | uuid
  | platform
  | tag
  | all
deriving DecidableEq

/-- `DistributedQueryTarget`: one row per target-selector entry. -/
structure QueryTarget where
  kind : TargetKind
  value : String
deriving DecidableEq

/-- The node attributes a target specification is evaluated against. -/
structure OsqueryNode where
  uuid : String
  platform : String
  tags : List String
deriving DecidableEq

/-- A `DistributedQuery` row: counters, flags and its target rows. -/
structure DistributedQuery where
  name : String
  expected : Nat
  executions : Nat
  errors : Nat
  active : Bool
  completed : Bool
  deleted : Bool
  targets : List QueryTarget
  createdAt : Nat
deriving DecidableEq

/-- Modelled from the spec: whether one target row matches a node —
explicit UUID match, or platform match, or any-tag match, or `all`. -/
def targetMatches (n : OsqueryNode) (t : QueryTarget) : Bool :=
  match t.kind with
  | .uuid => n.uuid == t.value
  | .platform => n.platform == t.value
  | .tag => n.tags.contains t.value
  | .all => true

/-- Insert a query into a list sorted by ascending `createdAt`
(oldest-created first). -/
def insertByCreated (q : DistributedQuery) :
    List DistributedQuery → List DistributedQuery
  | [] => [q]
  | r :: rs =>
      if q.createdAt ≤ r.createdAt then q :: r :: rs
      else r :: insertByCreated q rs

/-- Sort queries oldest-created first (insertion sort). -/
def sortByCreated : List DistributedQuery → List DistributedQuery
  | [] => []
  | q :: qs => insertByCreated q (sortByCreated qs)

/-- Modelled from the spec: `PendingFor(node)` — the active, non-completed,
non-deleted queries whose target specification matches the requesting node,
ordered oldest-created first; recomputed from the full query store on every
read call. -/
def PendingFor (n : OsqueryNode) (qs : List DistributedQuery) :
    List DistributedQuery :=
  sortByCreated (qs.filter fun q =>
    q.active && !q.completed && !q.deleted && q.targets.any (targetMatches n))

/-- Modelled from the spec: `SubmitResult` increments `executions` (or
`errors` when the payload signals a query-execution error) unconditionally;
after incrementing, if `executions + errors ≥ expected` it flips
`completed = true`, guarded so the transition fires at most once. Returns
the updated query and whether the completion transition fired on this
call. -/
def SubmitResult (q : DistributedQuery) (isError : Bool) :
    DistributedQuery × Bool :=
  let q1 :=
    if isError then { q with errors := q.errors + 1 }
    else { q with executions := q.executions + 1 }
  if q1.executions + q1.errors ≥ q1.expected then
    if q1.completed then (q1, false)
    else ({ q1 with completed := true }, true)
  else (q1, false)

lemma mem_insertByCreated (p q : DistributedQuery)
    (l : List DistributedQuery) :
    p ∈ insertByCreated q l ↔ p = q ∨ p ∈ l := by
  induction l with
  | nil => simp [insertByCreated]
  | cons r rs ih =>
      by_cases h : q.createdAt ≤ r.createdAt
      · simp [insertByCreated, h]
      · simp [insertByCreated, h, ih]
        tauto

lemma mem_sortByCreated (p : DistributedQuery) (l : List DistributedQuery) :
    p ∈ sortByCreated l ↔ p ∈ l := by
  induction l with
  | nil => simp [sortByCreated]
  | cons q qs ih => simp [sortByCreated, mem_insertByCreated, ih]

/-- C2: every `SubmitResult` increments exactly one counter unconditionally
(so `executions + errors` always grows by one, duplicates included); the
result is `completed` exactly when it already was or the incremented sum
reaches `expected` (so the flag turns true on the submission that first
reaches the expected count and never before); the completion transition
fires exactly when the query was not yet completed and the incremented sum
reaches `expected` (so a later duplicate still increments but cannot fire it
a second time). The closed conjuncts run the `expected = 3` scenario:
submissions 1 and 2 do not complete, submission 3 fires the transition, and
a 4th duplicate increments `executions` to 4 without re-firing it. -/
theorem submitResult_counts_and_completion :
    (∀ (q : DistributedQuery) (isError : Bool),
      (SubmitResult q isError).1.executions +
          (SubmitResult q isError).1.errors =
        q.executions + q.errors + 1 ∧
      (SubmitResult q isError).1.expected = q.expected ∧
      ((SubmitResult q isError).1.completed = true ↔
        (q.completed = true ∨ q.executions + q.errors + 1 ≥ q.expected)) ∧
      ((SubmitResult q isError).2 = true ↔
        (q.completed = false ∧ q.executions + q.errors + 1 ≥ q.expected))) ∧
    (SubmitResult ⟨"ping", 3, 0, 0, true, false, false, [], 0⟩
        false).1.completed = false ∧
    (SubmitResult (SubmitResult ⟨"ping", 3, 0, 0, true, false, false, [], 0⟩
        false).1 false).1.completed = false ∧
    (SubmitResult (SubmitResult
        (SubmitResult ⟨"ping", 3, 0, 0, true, false, false, [], 0⟩
          false).1 false).1 false).1.completed = true ∧
    (SubmitResult (SubmitResult
        (SubmitResult ⟨"ping", 3, 0, 0, true, false, false, [], 0⟩
          false).1 false).1 false).2 = true ∧
    (SubmitResult (SubmitResult (SubmitResult
        (SubmitResult ⟨"ping", 3, 0, 0, true, false, false, [], 0⟩
          false).1 false).1 false).1 false).1.executions = 4 ∧
    (SubmitResult (SubmitResult (SubmitResult
        (SubmitResult ⟨"ping", 3, 0, 0, true, false, false, [], 0⟩
          false).1 false).1 false).1 false).1.completed = true ∧
    (SubmitResult (SubmitResult (SubmitResult
        (SubmitResult ⟨"ping", 3, 0, 0, true, false, false, [], 0⟩
          false).1 false).1 false).1 false).2 = false := by
  refine ⟨?_, by decide, by decide, by decide, by decide, by decide,
    by decide, by decide⟩
  intro q isError
  cases isError <;> simp only [SubmitResult] <;> split_ifs <;>
    simp_all <;> omega

/-- C5: `PendingFor(node)` never returns a deleted query (regardless of its
`completed` flag) and only returns active, non-completed queries one of
whose target rows matches the node (UUID, platform, any-tag or `all`). -/
theorem pendingFor_never_deleted_and_matches (n : OsqueryNode)
    (qs : List DistributedQuery) (q : DistributedQuery)
    (h : q ∈ PendingFor n qs) :
    q.deleted = false ∧ q.active = true ∧ q.completed = false ∧
      ∃ t ∈ q.targets, targetMatches n t = true := by
  rw [PendingFor, mem_sortByCreated, List.mem_filter] at h
  obtain ⟨-, hp⟩ := h
  simp only [Bool.and_eq_true, Bool.not_eq_true', List.any_eq_true] at hp
  refine ⟨?_, ?_, ?_, ?_⟩ <;> tauto

/-- Witness for C5: a concrete matching, non-deleted query is returned by
`PendingFor` and satisfies the invariant. -/
theorem pendingFor_never_deleted_and_matches_witness :
    (⟨"uptime", 1, 0, 0, true, false, false, [⟨TargetKind.all, ""⟩], 5⟩ :
        DistributedQuery).deleted = false ∧
      (⟨"uptime", 1, 0, 0, true, false, false, [⟨TargetKind.all, ""⟩], 5⟩ :
        DistributedQuery).active = true ∧
      (⟨"uptime", 1, 0, 0, true, false, false, [⟨TargetKind.all, ""⟩], 5⟩ :
        DistributedQuery).completed = false ∧
      ∃ t ∈ (⟨"uptime", 1, 0, 0, true, false, false,
          [⟨TargetKind.all, ""⟩], 5⟩ : DistributedQuery).targets,
        targetMatches ⟨"abc", "linux", ["server"]⟩ t = true :=
  pendingFor_never_deleted_and_matches ⟨"abc", "linux", ["server"]⟩
    [⟨"uptime", 1, 0, 0, true, false, false, [⟨TargetKind.all, ""⟩], 5⟩]
    ⟨"uptime", 1, 0, 0, true, false, false, [⟨TargetKind.all, ""⟩], 5⟩
    (by decide)

/-! ## File Carving Engine

The carves package is not under `src/` (only its wiring in
`src/tls/main.go` is), so the engine is modelled from the spec: a per-session
block store keyed by zero-based sequence number, with completion exactly when
the distinct received-sequence set covers `[0, totalBlocks)`. -/

/-- Carve session status: `requested → in progress → completed | failed`. -/
inductive CarveStatus
  | requested
  | inProgress
  | completed
  | failed
deriving DecidableEq

/-- A `CarvedFile` session with its accumulated `CarvedBlock`s: the declared
total block count, the session status, and the block store keyed by sequence
number (payloads are byte lists). -/
structure CarveSession where
  totalBlocks : Nat
  status : CarveStatus
  blocks : List (Nat × List Nat)
deriving DecidableEq

/-- Store a block: the payload for `seq` overwrites any previously received
payload for the same sequence number (set-membership update, not append). -/
def storeBlock (bs : List (Nat × List Nat)) (seq : Nat) (p : List Nat) :
    List (Nat × List Nat) :=
  (seq, p) :: bs.filter fun b => b.1 != seq

/-- The payload currently stored for sequence number `seq`, if any. -/
def lookupBlock (bs : List (Nat × List Nat)) (seq : Nat) :
    Option (List Nat) :=
  (bs.find? fun b => b.1 == seq).map Prod.snd

/-- Whether sequence number `seq` has been received. -/
def received (bs : List (Nat × List Nat)) (seq : Nat) : Bool :=
  (lookupBlock bs seq).isSome

/-- Completion check: the distinct received-sequence set covers
`{0 … total-1}`. -/
def isComplete (total : Nat) (bs : List (Nat × List Nat)) : Bool :=
  (List.range total).all fun i => received bs i

/-- A freshly initialized session: status `requested`, no blocks. -/
def initCarveSession (total : Nat) : CarveSession :=
  ⟨total, .requested, []⟩

/-- Modelled from the spec: `InitCarve` rejects non-positive block counts
and otherwise creates the session in `requested`. -/
def InitCarve (totalBlocks : Int) : Except String CarveSession :=
  if totalBlocks ≤ 0 then .error "invalid total blocks"
  else .ok (initCarveSession totalBlocks.toNat)

/-- Modelled from the spec: `WriteBlock` rejects blocks for sessions in
`completed`/`failed` and sequence numbers outside `[0, totalBlocks)` (storing
nothing in those cases); otherwise it stores the block (overwriting a
duplicate), recomputes the completion check and transitions the session to
`completed` when the received set covers the full range, else to
`in progress`. -/
def WriteBlock (s : CarveSession) (seq : Nat) (p : List Nat) :
    Except String CarveSession :=
  if s.status = .completed ∨ s.status = .failed then
    .error "session already in a terminal state"
  else if s.totalBlocks ≤ seq then
    .error "sequence number out of range"
  else
    let bs := storeBlock s.blocks seq p
    if isComplete s.totalBlocks bs then .ok ⟨s.totalBlocks, .completed, bs⟩
    else .ok ⟨s.totalBlocks, .inProgress, bs⟩

/-- Reconstruction: concatenate the stored payloads ordered by sequence
number (not by arrival order). -/
def reconstruct (s : CarveSession) : List Nat :=
  ((List.range s.totalBlocks).map fun i =>
    (lookupBlock s.blocks i).getD []).flatten

/-- Run `WriteBlock` over a list of (sequence number, payload) arrivals. -/
def writeBlocks (s : CarveSession) :
    List (Nat × List Nat) → Except String CarveSession
  | [] => .ok s
  | (seq, p) :: rest =>
      match WriteBlock s seq p with
      | .ok s1 => writeBlocks s1 rest
      | .error e => .error e

lemma find?_key_filter (bs : List (Nat × List Nat)) (seq j : Nat)
    (h : j ≠ seq) :
    (bs.filter fun b => b.1 != seq).find? (fun b => b.1 == j) =
      bs.find? fun b => b.1 == j := by
  induction bs with
  | nil => simp
  | cons b rest ih =>
      have hsj : (seq == j) = false := by
        simp
        exact fun hc => (h hc.symm).elim
      by_cases hb : b.1 = seq
      · simp [List.filter_cons, List.find?_cons, hb, hsj, ih]
      · by_cases hbj : b.1 = j
        · simp [List.filter_cons, List.find?_cons, hb, hbj, h, ih]
        · simp [List.filter_cons, List.find?_cons, hb, hbj, h, ih]

lemma lookup_storeBlock (bs : List (Nat × List Nat)) (seq : Nat)
    (p : List Nat) (j : Nat) :
    lookupBlock (storeBlock bs seq p) j =
      if j = seq then some p else lookupBlock bs j := by
  by_cases h : j = seq
  · subst h
    simp [lookupBlock, storeBlock, List.find?_cons]
  · have hj : (seq == j) = false := by
      simp
      exact fun hc => (h hc.symm).elim
    simp [lookupBlock, storeBlock, List.find?_cons, hj, h,
      find?_key_filter bs seq j h]

lemma isComplete_iff (total : Nat) (bs : List (Nat × List Nat)) :
    isComplete total bs = true ↔
      ∀ i, i < total → (lookupBlock bs i).isSome = true := by
  simp [isComplete, received, List.all_eq_true, List.mem_range]

/-- Main run lemma for carve completion: processing any remaining nodup set
of sequence numbers `todo` (with `done` already stored) drives the session
to `completed` with every payload stored. -/
lemma writeBlocks_cover (total : Nat) (f : Nat → List Nat) :
    ∀ (todo done : List Nat) (s : CarveSession),
      s.totalBlocks = total →
      (s.status = CarveStatus.requested ∨
        s.status = CarveStatus.inProgress) →
      (done ++ todo).Perm (List.range total) →
      (∀ j, lookupBlock s.blocks j =
        if j ∈ done then some (f j) else none) →
      todo ≠ [] →
      ∃ s1, writeBlocks s (todo.map fun i => (i, f i)) = .ok s1 ∧
        s1.totalBlocks = total ∧ s1.status = CarveStatus.completed ∧
        ∀ j, lookupBlock s1.blocks j =
          if j ∈ List.range total then some (f j) else none := by
  intro todo
  induction todo with
  | nil => intro done s _ _ _ _ hne; exact absurd rfl hne
  | cons seq rest ih =>
      intro done s htot hstat hperm hlook _
      have hnodup : (done ++ seq :: rest).Nodup :=
        hperm.symm.nodup (List.nodup_range total)
      obtain ⟨hnd, hns, hdisj⟩ := List.nodup_append.mp hnodup
      have hseqdone : seq ∉ done := fun hm => hdisj hm (List.mem_cons_self _ _)
      have hseqr : seq ∈ List.range total := hperm.mem_iff.mp (by simp)
      have hseqlt : seq < total := List.mem_range.mp hseqr
      have hterm : ¬ (s.status = CarveStatus.completed ∨
          s.status = CarveStatus.failed) := by
        rcases hstat with h | h <;> simp [h]
      have hrange : ¬ (s.totalBlocks ≤ seq) := by rw [htot]; omega
      have hrange2 : ¬ (total ≤ seq) := by omega
      have hlook2 : ∀ j, lookupBlock (storeBlock s.blocks seq (f seq)) j =
          if j ∈ seq :: done then some (f j) else none := by
        intro j
        rw [lookup_storeBlock]
        by_cases hj : j = seq
        · subst hj; simp
        · simp [hj, hlook j, List.mem_cons]
      cases rest with
      | nil =>
          have hcov : ∀ i, i < total →
              (lookupBlock (storeBlock s.blocks seq (f seq)) i).isSome =
                true := by
            intro i hi
            have hmem : i ∈ done ++ [seq] :=
              hperm.mem_iff.mpr (List.mem_range.mpr hi)
            have : i ∈ seq :: done := by
              rcases List.mem_append.mp hmem with h | h
              · exact List.mem_cons_of_mem _ h
              · simp at h; simp [h]
            rw [hlook2 i, if_pos this]
            rfl
          have hcomp :
              isComplete total (storeBlock s.blocks seq (f seq)) = true :=
            (isComplete_iff _ _).mpr hcov
          refine ⟨⟨total, CarveStatus.completed,
            storeBlock s.blocks seq (f seq)⟩, ?_, rfl, rfl, ?_⟩
          · simp [writeBlocks, WriteBlock, hterm, hrange, hrange2, htot,
              hcomp]
          · intro j
            rw [hlook2 j]
            have hiff : j ∈ seq :: done ↔ j ∈ List.range total := by
              rw [← hperm.mem_iff]
              simp [List.mem_append, List.mem_cons, or_comm]
            by_cases hj : j ∈ List.range total
            · rw [if_pos (hiff.mpr hj), if_pos hj]
            · rw [if_neg (fun hc => hj (hiff.mp hc)), if_neg hj]
      | cons r rest2 =>
          have hrm : r ∈ List.range total := hperm.mem_iff.mp (by simp)
          have hrlt : r < total := List.mem_range.mp hrm
          have hrdone : r ∉ done := fun hm =>
            hdisj hm (by simp)
          have hrseq : r ≠ seq := by
            intro h
            subst h
            exact (List.nodup_cons.mp hns).1 (by simp)
          have hnotcomp :
              isComplete total (storeBlock s.blocks seq (f seq)) = false := by
            by_contra hc
            rw [Bool.not_eq_false] at hc
            have := (isComplete_iff _ _).mp hc r hrlt
            rw [hlook2 r, if_neg (by simp [hrseq, hrdone])] at this
            simp at this
          have hstep : WriteBlock s seq (f seq) =
              .ok ⟨total, CarveStatus.inProgress,
                storeBlock s.blocks seq (f seq)⟩ := by
            simp [WriteBlock, hterm, hrange, hrange2, hseqlt, htot, hnotcomp]
          have hperm' :
              ((done ++ [seq]) ++ r :: rest2).Perm (List.range total) := by
            simpa [List.append_assoc] using hperm
          have hlook' : ∀ j,
              lookupBlock (storeBlock s.blocks seq (f seq)) j =
                if j ∈ done ++ [seq] then some (f j) else none := by
            intro j
            rw [hlook2 j]
            have hiff : j ∈ seq :: done ↔ j ∈ done ++ [seq] := by
              simp [List.mem_append, List.mem_cons, or_comm]
            by_cases hj : j ∈ seq :: done
            · rw [if_pos hj, if_pos (hiff.mp hj)]
            · rw [if_neg hj, if_neg (fun hc => hj (hiff.mpr hc))]
          obtain ⟨s1, hrun, h1, h2, h3⟩ :=
            ih (done ++ [seq])
              ⟨total, CarveStatus.inProgress,
                storeBlock s.blocks seq (f seq)⟩
              rfl (Or.inr rfl) hperm' hlook' (by simp)
          refine ⟨s1, ?_, h1, h2, h3⟩
          simpa [writeBlocks, hstep] using hrun

/-- C3: for every carve session with `total` blocks, calling `WriteBlock`
with every sequence number in `[0, total)` exactly once, in any permutation
of arrival order, transitions the session to `completed`, and the
reconstructed byte stream is the concatenation of the block payloads ordered
by sequence number, not by arrival order. -/
theorem carve_permutation_completes (total : Nat) (f : Nat → List Nat)
    (seqOrder : List Nat) (hperm : seqOrder.Perm (List.range total))
    (hpos : 0 < total) :
    ∃ s1, writeBlocks (initCarveSession total)
        (seqOrder.map fun i => (i, f i)) = .ok s1 ∧
      s1.status = CarveStatus.completed ∧
      reconstruct s1 = ((List.range total).map f).flatten := by
  have hne : seqOrder ≠ [] := by
    intro h
    subst h
    have := hperm.length_eq
    simp [List.length_range] at this
    omega
  obtain ⟨s1, hrun, htot, hstat, hlook⟩ :=
    writeBlocks_cover total f seqOrder [] (initCarveSession total) rfl
      (Or.inl rfl) (by simpa using hperm)
      (by intro j; simp [initCarveSession, lookupBlock]) hne
  refine ⟨s1, hrun, hstat, ?_⟩
  rw [reconstruct, htot]
  congr 1
  apply List.map_congr_left
  intro i hi
  rw [hlook i, if_pos hi]
  rfl

/-- Witness for C3 at `total = 3` with blocks arriving in the order
`2, 0, 1`. -/
theorem carve_permutation_completes_witness :
    ([2, 0, 1] : List Nat).Perm (List.range 3) ∧ 0 < 3 ∧
      ∃ s1, writeBlocks (initCarveSession 3)
          (([2, 0, 1] : List Nat).map fun i => (i, [i])) = .ok s1 ∧
        s1.status = CarveStatus.completed ∧
        reconstruct s1 = ((List.range 3).map fun i => [i]).flatten :=
  ⟨by decide, by decide,
    carve_permutation_completes 3 (fun i => [i]) [2, 0, 1] (by decide)
      (by decide)⟩

/-- C6: for a non-terminal session and an in-range sequence number that was
already received, a duplicate `WriteBlock` is idempotent with respect to
completion accounting: it succeeds, the re-sent payload overwrites the
stored one, the distinct received-sequence set does not grow, and (the
session not being complete before) the duplicate alone cannot complete the
session. -/
theorem writeBlock_duplicate_idempotent (s : CarveSession) (seq : Nat)
    (p : List Nat)
    (hstat : s.status = CarveStatus.requested ∨
      s.status = CarveStatus.inProgress)
    (hlt : seq < s.totalBlocks)
    (hrec : received s.blocks seq = true)
    (hincomp : isComplete s.totalBlocks s.blocks = false) :
    ∃ s1, WriteBlock s seq p = .ok s1 ∧
      lookupBlock s1.blocks seq = some p ∧
      (∀ j, received s1.blocks j = received s.blocks j) ∧
      s1.status = CarveStatus.inProgress ∧
      s1.status ≠ CarveStatus.completed := by
  have hterm : ¬ (s.status = CarveStatus.completed ∨
      s.status = CarveStatus.failed) := by
    rcases hstat with h | h <;> simp [h]
  have hrange : ¬ (s.totalBlocks ≤ seq) := by omega
  have hsame : ∀ j, received (storeBlock s.blocks seq p) j =
      received s.blocks j := by
    intro j
    by_cases hj : j = seq
    · subst hj
      rw [received, lookup_storeBlock, if_pos rfl, hrec]
      rfl
    · rw [received, lookup_storeBlock, if_neg hj]
      rfl
  have hcomp' : isComplete s.totalBlocks (storeBlock s.blocks seq p) =
      false := by
    by_contra hc
    rw [Bool.not_eq_false] at hc
    have hall : isComplete s.totalBlocks s.blocks = true := by
      rw [isComplete_iff]
      intro i hi
      have h2 := (isComplete_iff _ _).mp hc i hi
      rw [← received, hsame i, received] at h2
      exact h2
    rw [hall] at hincomp
    exact absurd hincomp (by simp)
  refine ⟨⟨s.totalBlocks, CarveStatus.inProgress,
    storeBlock s.blocks seq p⟩, ?_, ?_, hsame, rfl, by simp⟩
  · simp [WriteBlock, hterm, hrange, hcomp']
  · rw [lookup_storeBlock, if_pos rfl]

/-- Witness for C6: a duplicate of block 0 in a two-block session overwrites
the payload and leaves the session incomplete. -/
theorem writeBlock_duplicate_idempotent_witness :
    ∃ s1, WriteBlock ⟨2, CarveStatus.inProgress, [(0, [7])]⟩ 0 [9] =
        .ok s1 ∧
      lookupBlock s1.blocks 0 = some [9] ∧
      (∀ j, received s1.blocks j =
        received ([(0, [7])] : List (Nat × List Nat)) j) ∧
      s1.status = CarveStatus.inProgress ∧
      s1.status ≠ CarveStatus.completed :=
  writeBlock_duplicate_idempotent ⟨2, CarveStatus.inProgress, [(0, [7])]⟩
    0 [9] (Or.inr rfl) (by decide) (by decide) (by decide)

/-- C7: `WriteBlock` returns an error (and hence produces no new session
state: no block is stored) whenever the sequence number is outside
`[0, totalBlocks)` or the session is already `completed`/`failed`;
`InitCarve` returns an error (creating no session) for any non-positive
total block count and otherwise creates the session in `requested` with no
blocks. -/
theorem writeBlock_initCarve_rejections :
    (∀ (s : CarveSession) (seq : Nat) (p : List Nat),
      (s.totalBlocks ≤ seq ∨ s.status = CarveStatus.completed ∨
        s.status = CarveStatus.failed) →
      ∃ e, WriteBlock s seq p = .error e) ∧
    (∀ t : Int, t ≤ 0 → ∃ e, InitCarve t = .error e) ∧
    (∀ t : Int, 0 < t →
      InitCarve t = .ok ⟨t.toNat, CarveStatus.requested, []⟩) := by
  refine ⟨?_, ?_, ?_⟩
  · intro s seq p h
    by_cases ht : s.status = CarveStatus.completed ∨
        s.status = CarveStatus.failed
    · exact ⟨"session already in a terminal state", by simp [WriteBlock, ht]⟩
    · rcases h with hge | hc | hf
      · exact ⟨"sequence number out of range",
          by simp [WriteBlock, ht, hge]⟩
      · exact absurd (Or.inl hc) ht
      · exact absurd (Or.inr hf) ht
  · intro t ht
    exact ⟨"invalid total blocks", by simp [InitCarve, ht]⟩
  · intro t ht
    have hn : ¬ (t ≤ 0) := by omega
    simp [InitCarve, initCarveSession, hn]

/-- Witness for C7: an out-of-range block, a write to a completed session,
`InitCarve 0`, and `InitCarve 3`. -/
theorem writeBlock_initCarve_rejections_witness :
    (∃ e, WriteBlock ⟨2, CarveStatus.inProgress, []⟩ 5 [1] = .error e) ∧
    (∃ e, WriteBlock ⟨2, CarveStatus.completed, []⟩ 0 [1] = .error e) ∧
    (∃ e, InitCarve 0 = .error e) ∧
    InitCarve 3 = .ok ⟨3, CarveStatus.requested, []⟩ :=
  ⟨writeBlock_initCarve_rejections.1 ⟨2, CarveStatus.inProgress, []⟩ 5 [1]
      (Or.inl (by decide)),
    writeBlock_initCarve_rejections.1 ⟨2, CarveStatus.completed, []⟩ 0 [1]
      (Or.inr (Or.inl rfl)),
    writeBlock_initCarve_rejections.2.1 0 (by decide),
    writeBlock_initCarve_rejections.2.2 3 (by decide)⟩

/-! ## Protocol Handler Layer (router in src/tls/main.go; handlers modelled) -/

/-- The protocol endpoints registered on the TLS router
(`src/tls/main.go`, `osctrlService`): one per `routerTLS.HandleFunc` route
for osquery nodes and osctrld. -/
inductive TLSEndpoint
  | enroll
  | config
  | log
  | queryRead
  | queryWrite
  | carveInit
  | carveBlock
  | quickScript
  | flags
  | cert
  | verify
  | script
deriving DecidableEq

/-- The router registration order of the protocol endpoints in
`osctrlService` (`src/tls/main.go`). -/
def routerTLSHandlers : List TLSEndpoint :=
  [.enroll, .config, .log, .queryRead, .queryWrite, .carveInit,
    .carveBlock, .quickScript, .flags, .cert, .verify, .script]

/-- Modelled from the spec: the per-endpoint handlers (tls/handlers, not
under `src/`) authenticate the request's node_key exactly for the endpoints
that require one; enroll, quick-script, flags, cert and verify only
establish or confirm identity, carve-block is session-scoped and script is
secret-based. -/
def requiresNodeKey : TLSEndpoint → Bool
  | .config => true
  | .log => true
  | .queryRead => true
  | .queryWrite => true
  | .carveInit => true
  | _ => false

/-- Modelled from the spec: whether a handler lets a request past its
authentication stage, given whether the request carries a node_key that
authenticates successfully for the resolved environment. -/
def handlerAccepts (e : TLSEndpoint) (nodeKeyValid : Bool) : Bool :=
  !requiresNodeKey e || nodeKeyValid

/-- C4: the enroll, quick-script, flags, cert and verify endpoints accept
requests regardless of node_key validity, while config, log, read, write
and carve-init accept a request exactly when its node_key authenticates
(so any request without a valid node_key is rejected); all ten endpoints
are registered on the TLS router. -/
theorem endpoint_auth_partition :
    (∀ e ∈ [TLSEndpoint.enroll, TLSEndpoint.quickScript, TLSEndpoint.flags,
        TLSEndpoint.cert, TLSEndpoint.verify],
      (∀ kv : Bool, handlerAccepts e kv = true) ∧
        e ∈ routerTLSHandlers) ∧
    (∀ e ∈ [TLSEndpoint.config, TLSEndpoint.log, TLSEndpoint.queryRead,
        TLSEndpoint.queryWrite, TLSEndpoint.carveInit],
      (∀ kv : Bool, handlerAccepts e kv = kv) ∧
        e ∈ routerTLSHandlers) := by
  decide

/-- Witness for C4: the flags handler accepts a request with no valid
node_key; the config handler rejects one. -/
theorem endpoint_auth_partition_witness :
    handlerAccepts TLSEndpoint.flags false = true ∧
      handlerAccepts TLSEndpoint.config false = false :=
  ⟨(endpoint_auth_partition.1 TLSEndpoint.flags (by decide)).1 false,
    (endpoint_auth_partition.2 TLSEndpoint.config (by decide)).1 false⟩

/-! ## TLS service configuration validation (src/tls/main.go) -/

/-- Modelled from the spec: `settings.AuthNone` (the settings package is not
under `src/`); the only valid auth method for the TLS service. -/
def AuthNone : String := "none"

/-- Modelled from the spec: the `settings.Logging*` constants. -/
def LoggingNone : String := "none"

def LoggingStdout : String := "stdout"

def LoggingFile : String := "file"

def LoggingDB : String := "db"

def LoggingGraylog : String := "graylog"

def LoggingSplunk : String := "splunk"

def LoggingKafka : String := "kafka"

def LoggingKinesis : String := "kinesis"

def LoggingS3 : String := "s3"

/-- Modelled from the spec: the `settings.Carver*` constants
(db, local, s3). -/
def CarverDB : String := "db"

def CarverLocal : String := "local"

def CarverS3 : String := "s3"

/-- `types.JSONConfigurationTLS`: the fields of the TLS service
configuration set by flags and validated by `loadConfiguration`. -/
structure JSONConfigurationTLS where
  listener : String
  port : String
  host : String
  auth : String
  logger : String
  carver : String
deriving DecidableEq

/-- `validAuth` (`src/tls/main.go`): the set of valid values for
authentication — only `settings.AuthNone`. -/
def validAuth : List String := [AuthNone]

/-- `validLogging` (`src/tls/main.go`): the nine valid logging methods. -/
def validLogging : List String :=
  [LoggingNone, LoggingStdout, LoggingFile, LoggingDB, LoggingGraylog,
    LoggingSplunk, LoggingKafka, LoggingKinesis, LoggingS3]

/-- `validCarver` (`src/tls/main.go`): the three valid carver methods. -/
def validCarver : List String := [CarverDB, CarverLocal, CarverS3]

/-- `loadConfiguration` (`src/tls/main.go`): the argument stands for the
outcome of reading the file and unmarshalling the service key (an error is
returned unchanged); a parsed configuration is then rejected unless its
`Auth`, `Logger` and `Carver` fields pass the three membership checks. -/
def loadConfiguration (parsed : Except String JSONConfigurationTLS) :
    Except String JSONConfigurationTLS :=
  match parsed with
  | .error e => .error e
  | .ok cfg =>
      if validAuth.contains cfg.auth = false then
        .error "Invalid auth method"
      else if validLogging.contains cfg.logger = false then
        .error "Invalid logging method"
      else if validCarver.contains cfg.carver = false then
        .error "Invalid carver method"
      else .ok cfg

/-- C10: `loadConfiguration` returns a configuration without error only
when its `Auth` field is `"none"` (the only entry of `validAuth`), its
`Logger` field is one of the nine entries of `validLogging` and its
`Carver` field one of the three entries of `validCarver`; any
configuration failing one of the three membership checks is rejected; and
the valid sets are exactly as claimed. -/
theorem loadConfiguration_validation :
    (∀ (parsed : Except String JSONConfigurationTLS)
        (cfg : JSONConfigurationTLS),
      loadConfiguration parsed = .ok cfg →
        cfg.auth = AuthNone ∧
          validLogging.contains cfg.logger = true ∧
          validCarver.contains cfg.carver = true) ∧
    (∀ cfg : JSONConfigurationTLS,
      (cfg.auth ≠ AuthNone ∨ validLogging.contains cfg.logger = false ∨
        validCarver.contains cfg.carver = false) →
      ∃ e, loadConfiguration (.ok cfg) = .error e) ∧
    validAuth = [AuthNone] ∧
    validLogging.length = 9 ∧
    validCarver = ["db", "local", "s3"] := by
  refine ⟨?_, ?_, rfl, rfl, rfl⟩
  · intro parsed cfg h
    cases parsed with
    | error e => simp [loadConfiguration] at h
    | ok cfg0 =>
        by_cases h1 : validAuth.contains cfg0.auth = false
        · rw [loadConfiguration, if_pos h1] at h
          cases h
        · by_cases h2 : validLogging.contains cfg0.logger = false
          · rw [loadConfiguration, if_neg h1, if_pos h2] at h
            cases h
          · by_cases h3 : validCarver.contains cfg0.carver = false
            · rw [loadConfiguration, if_neg h1, if_neg h2, if_pos h3] at h
              cases h
            · rw [loadConfiguration, if_neg h1, if_neg h2, if_neg h3] at h
              injection h with hh
              subst hh
              have ha : validAuth.contains cfg0.auth = true := by
                cases hv : validAuth.contains cfg0.auth
                · exact absurd hv h1
                · rfl
              have hl : validLogging.contains cfg0.logger = true := by
                cases hv : validLogging.contains cfg0.logger
                · exact absurd hv h2
                · rfl
              have hc : validCarver.contains cfg0.carver = true := by
                cases hv : validCarver.contains cfg0.carver
                · exact absurd hv h3
                · rfl
              refine ⟨?_, hl, hc⟩
              simpa [validAuth, AuthNone] using ha
  · intro cfg h
    by_cases h1 : validAuth.contains cfg.auth = false
    · exact ⟨"Invalid auth method", by rw [loadConfiguration, if_pos h1]⟩
    · by_cases h2 : validLogging.contains cfg.logger = false
      · exact ⟨"Invalid logging method",
          by rw [loadConfiguration, if_neg h1, if_pos h2]⟩
      · by_cases h3 : validCarver.contains cfg.carver = false
        · exact ⟨"Invalid carver method",
            by rw [loadConfiguration, if_neg h1, if_neg h2, if_pos h3]⟩
        · exfalso
          rcases h with ha | hl | hc
          · refine ha ?_
            have hmem : validAuth.contains cfg.auth = true := by
              cases hv : validAuth.contains cfg.auth
              · exact absurd hv h1
              · rfl
            simpa [validAuth, AuthNone] using hmem
          · exact h2 hl
          · exact h3 hc

/-- Witness for C10: a fully valid configuration is returned unchanged and
satisfies the membership conclusions; a configuration with an invalid
carver is rejected. -/
theorem loadConfiguration_validation_witness :
    ((⟨"0.0.0.0", "9000", "0.0.0.0", "none", "db", "local"⟩ :
        JSONConfigurationTLS).auth = AuthNone ∧
      validLogging.contains
        (⟨"0.0.0.0", "9000", "0.0.0.0", "none", "db", "local"⟩ :
          JSONConfigurationTLS).logger = true ∧
      validCarver.contains
        (⟨"0.0.0.0", "9000", "0.0.0.0", "none", "db", "local"⟩ :
          JSONConfigurationTLS).carver = true) ∧
    ∃ e, loadConfiguration
        (.ok ⟨"0.0.0.0", "9000", "0.0.0.0", "none", "db", "ftp"⟩) =
      .error e :=
  ⟨loadConfiguration_validation.1
      (.ok ⟨"0.0.0.0", "9000", "0.0.0.0", "none", "db", "local"⟩)
      ⟨"0.0.0.0", "9000", "0.0.0.0", "none", "db", "local"⟩ (by rfl),
    loadConfiguration_validation.2.1
      ⟨"0.0.0.0", "9000", "0.0.0.0", "none", "db", "ftp"⟩
      (Or.inr (Or.inr (by decide)))⟩

end Osctrl

